import Mathlib

/-!
Shallow embedding of the spatial audio engine (core audio module):
distance attenuation, reverb impulse synthesis, positional and ambient
sources, sound pools, the environment node graph and the buffer cache.
Each definition mirrors the corresponding TypeScript class or function.
-/

namespace Strata

/-- Distance model tags, mirroring the DistanceModel union type. -/
inductive DistanceModel where
  | linear
  | inverse
  | exponential
deriving DecidableEq

/-- Clamping of the input distance into the interval from refDistance to
maxDistance, mirroring Math.max(refDistance, Math.min(distance, maxDistance)). -/
noncomputable def clampDistance (distance refDistance maxDistance : ℝ) : ℝ :=
  max refDistance (min distance maxDistance)

/-- Embedding of calculateDistanceAttenuation: clamp the distance, then
evaluate the formula of the selected model. The exponential branch uses the
real power function, mirroring Math.pow. -/
noncomputable def calculateDistanceAttenuation
    (distance refDistance maxDistance rolloffFactor : ℝ)
    (model : DistanceModel) : ℝ :=
  match model with
  | .linear =>
      1 - rolloffFactor * (clampDistance distance refDistance maxDistance - refDistance)
        / (maxDistance - refDistance)
  | .inverse =>
      refDistance /
        (refDistance + rolloffFactor * (clampDistance distance refDistance maxDistance - refDistance))
  | .exponential =>
      (clampDistance distance refDistance maxDistance / refDistance) ^ (-rolloffFactor)

theorem clampDistance_mem (d ref mx : ℝ) (h : ref ≤ mx) :
    ref ≤ clampDistance d ref mx ∧ clampDistance d ref mx ≤ mx := by
  constructor
  · exact le_max_left _ _
  · exact max_le h (min_le_right _ _)

theorem clampDistance_idem (d ref mx : ℝ) (h : ref ≤ mx) :
    clampDistance (clampDistance d ref mx) ref mx = clampDistance d ref mx := by
  have h1 : clampDistance d ref mx ≤ mx := (clampDistance_mem d ref mx h).2
  have h2 : ref ≤ clampDistance d ref mx := (clampDistance_mem d ref mx h).1
  show max ref (min (clampDistance d ref mx) mx) = clampDistance d ref mx
  rw [min_eq_left h1, max_eq_right h2]

theorem clampDistance_mono (d₁ d₂ ref mx : ℝ) (h : d₁ ≤ d₂) :
    clampDistance d₁ ref mx ≤ clampDistance d₂ ref mx :=
  max_le_max le_rfl (min_le_min h le_rfl)

/-- Claim C4: for every model and every rolloff factor at least 0, with
0 < refDistance < maxDistance, the attenuation at distance refDistance is 1,
and the function depends on the input distance only through its clamped value
in the interval from refDistance to maxDistance. -/
theorem calculateDistanceAttenuation_at_ref_and_clamps
    (ref mx r : ℝ) (h0 : 0 < ref) (h1 : ref < mx) (_hr : 0 ≤ r) :
    (∀ model, calculateDistanceAttenuation ref ref mx r model = 1) ∧
    (∀ d model, calculateDistanceAttenuation d ref mx r model =
      calculateDistanceAttenuation (clampDistance d ref mx) ref mx r model) := by
  have hc : clampDistance ref ref mx = ref := by
    show max ref (min ref mx) = ref
    rw [min_eq_left h1.le, max_self]
  constructor
  · intro model
    cases model with
    | linear =>
        simp only [calculateDistanceAttenuation, hc, sub_self, mul_zero, zero_div, sub_zero]
    | inverse =>
        simp only [calculateDistanceAttenuation, hc, sub_self, mul_zero, add_zero]
        exact div_self h0.ne'
    | exponential =>
        simp only [calculateDistanceAttenuation, hc]
        rw [div_self h0.ne', Real.one_rpow]
  · intro d model
    cases model <;>
      simp only [calculateDistanceAttenuation, clampDistance_idem d ref mx h1.le]

/-- Witness for claim C4 at refDistance 1, maxDistance 2, rolloff 1;
the clamping conjunct is instantiated at input distance 5. -/
theorem calculateDistanceAttenuation_at_ref_and_clamps_witness :
    calculateDistanceAttenuation 1 1 2 1 DistanceModel.inverse = 1 ∧
    calculateDistanceAttenuation 5 1 2 1 DistanceModel.linear =
      calculateDistanceAttenuation (clampDistance 5 1 2) 1 2 1 DistanceModel.linear := by
  have h := calculateDistanceAttenuation_at_ref_and_clamps 1 2 1
    (by norm_num) (by norm_num) (by norm_num)
  exact ⟨h.1 DistanceModel.inverse, h.2 5 DistanceModel.linear⟩

/-- Counterexample to claim C3 as stated: under the linear model with
rolloff factor 2 (which is at least 0), refDistance 1, maxDistance 2 and
input distance 2 (already inside the clamp interval), the result is -1,
which is not in the range from 0 to 1. -/
theorem calculateDistanceAttenuation_linear_negative :
    calculateDistanceAttenuation 2 1 2 2 DistanceModel.linear < 0 := by
  have hc : clampDistance 2 1 2 = 2 := by
    show max 1 (min 2 2) = 2
    rw [min_self]
    exact max_eq_right (by norm_num)
  simp only [calculateDistanceAttenuation, hc]
  norm_num

/-- Claim C3 as amended: with 0 < refDistance < maxDistance and rolloff
factor at least 0, the inverse model always lands in the range from 0 to 1;
the linear model lands in that range when the rolloff factor is also at
most 1; and the exponential model is monotonically non-increasing in the
input distance. -/
theorem calculateDistanceAttenuation_bounds
    (ref mx r : ℝ) (h0 : 0 < ref) (h1 : ref < mx) (hr : 0 ≤ r) :
    (∀ d, 0 ≤ calculateDistanceAttenuation d ref mx r DistanceModel.inverse ∧
          calculateDistanceAttenuation d ref mx r DistanceModel.inverse ≤ 1) ∧
    (r ≤ 1 → ∀ d, 0 ≤ calculateDistanceAttenuation d ref mx r DistanceModel.linear ∧
          calculateDistanceAttenuation d ref mx r DistanceModel.linear ≤ 1) ∧
    (∀ d₁ d₂, d₁ ≤ d₂ →
      calculateDistanceAttenuation d₂ ref mx r DistanceModel.exponential ≤
        calculateDistanceAttenuation d₁ ref mx r DistanceModel.exponential) := by
  refine ⟨?_, ?_, ?_⟩
  · intro d
    have hcm := clampDistance_mem d ref mx h1.le
    have hterm : 0 ≤ r * (clampDistance d ref mx - ref) :=
      mul_nonneg hr (sub_nonneg.2 hcm.1)
    have hden : 0 < ref + r * (clampDistance d ref mx - ref) :=
      add_pos_of_pos_of_nonneg h0 hterm
    constructor
    · exact div_nonneg h0.le hden.le
    · exact (div_le_one hden).2 (le_add_of_nonneg_right hterm)
  · intro hr1 d
    have hcm := clampDistance_mem d ref mx h1.le
    have hmx : (0:ℝ) < mx - ref := sub_pos.2 h1
    have hnum0 : 0 ≤ r * (clampDistance d ref mx - ref) :=
      mul_nonneg hr (sub_nonneg.2 hcm.1)
    have hfrac0 : 0 ≤ r * (clampDistance d ref mx - ref) / (mx - ref) :=
      div_nonneg hnum0 hmx.le
    have hfrac1 : r * (clampDistance d ref mx - ref) / (mx - ref) ≤ 1 := by
      refine (div_le_one hmx).2 ?_
      calc r * (clampDistance d ref mx - ref)
          ≤ clampDistance d ref mx - ref :=
            mul_le_of_le_one_left (sub_nonneg.2 hcm.1) hr1
        _ ≤ mx - ref := sub_le_sub_right hcm.2 ref
    constructor
    · simp only [calculateDistanceAttenuation]
      linarith
    · simp only [calculateDistanceAttenuation]
      linarith
  · intro d₁ d₂ hd
    have hcm₁ := clampDistance_mem d₁ ref mx h1.le
    have hcm₂ := clampDistance_mem d₂ ref mx h1.le
    have hb₁ : (1:ℝ) ≤ clampDistance d₁ ref mx / ref := (one_le_div h0).2 hcm₁.1
    have hb₂ : clampDistance d₁ ref mx / ref ≤ clampDistance d₂ ref mx / ref :=
      div_le_div_of_nonneg_right (clampDistance_mono d₁ d₂ ref mx hd) h0.le
    have hp₁ : (0:ℝ) < clampDistance d₁ ref mx / ref := lt_of_lt_of_le one_pos hb₁
    simp only [calculateDistanceAttenuation]
    rw [Real.rpow_neg hp₁.le, Real.rpow_neg (le_trans hp₁.le hb₂)]
    have hpow : (clampDistance d₁ ref mx / ref) ^ r ≤ (clampDistance d₂ ref mx / ref) ^ r :=
      Real.rpow_le_rpow hp₁.le hb₂ hr
    have hpowpos : (0:ℝ) < (clampDistance d₁ ref mx / ref) ^ r :=
      Real.rpow_pos_of_pos hp₁ r
    exact inv_anti₀ hpowpos hpow

/-- Witness for the amended claim C3 at refDistance 1, maxDistance 2,
rolloff 1, with the exponential conjunct instantiated at distances 1 and 3. -/
theorem calculateDistanceAttenuation_bounds_witness :
    (0 ≤ calculateDistanceAttenuation 3 1 2 1 DistanceModel.inverse ∧
      calculateDistanceAttenuation 3 1 2 1 DistanceModel.inverse ≤ 1) ∧
    (0 ≤ calculateDistanceAttenuation 3 1 2 1 DistanceModel.linear ∧
      calculateDistanceAttenuation 3 1 2 1 DistanceModel.linear ≤ 1) ∧
    calculateDistanceAttenuation 3 1 2 1 DistanceModel.exponential ≤
      calculateDistanceAttenuation 1 1 2 1 DistanceModel.exponential := by
  have h := calculateDistanceAttenuation_bounds 1 2 1
    (by norm_num) (by norm_num) (by norm_num)
  exact ⟨h.1 3, h.2.1 (by norm_num) 3, h.2.2 1 3 (by norm_num)⟩

/-- Number of fully silent leading samples of the impulse response,
mirroring Math.floor(preDelay * sampleRate). -/
noncomputable def preDelaySamples (sampleRate : ℕ) (preDelay : ℝ) : ℤ :=
  ⌊preDelay * (sampleRate : ℝ)⌋

/-- One sample of the synthesized impulse response, mirroring the inner loop
of ReverbEffect.generateImpulseResponse: zero before the pre-delay, and
decaying noise (rand times 2 minus 1, scaled by the exponential envelope)
afterwards; rand stands for Math.random at that channel and index. -/
noncomputable def impulseChannelData (sampleRate : ℕ) (decay preDelay : ℝ)
    (rand : ℕ → ℕ → ℝ) (channel i : ℕ) : ℝ :=
  if (i : ℤ) < preDelaySamples sampleRate preDelay then 0
  else (rand channel i * 2 - 1) *
    Real.exp (-3 * (((i : ℝ) - ((preDelaySamples sampleRate preDelay : ℤ) : ℝ))
      / (sampleRate : ℝ)) / decay)

/-- The audio buffer produced by createBuffer(2, sampleRate * decay, sampleRate)
and filled by generateImpulseResponse; data maps channel and sample index to
the sample value. -/
structure ImpulseBuffer where
  numberOfChannels : ℕ
  length : ℝ
  sampleRate : ℕ
  data : ℕ → ℕ → ℝ

/-- Embedding of ReverbEffect.generateImpulseResponse. -/
noncomputable def generateImpulseResponse (sampleRate : ℕ) (decay preDelay : ℝ)
    (rand : ℕ → ℕ → ℝ) : ImpulseBuffer :=
  { numberOfChannels := 2
    length := (sampleRate : ℝ) * decay
    sampleRate := sampleRate
    data := impulseChannelData sampleRate decay preDelay rand }

/-- Claim C6: for decay above 0 and nonnegative preDelay, the synthesized
impulse response is a 2-channel buffer of length sampleRate times decay;
samples strictly before floor(preDelay times sampleRate) are 0; samples from
that index on equal (2 rand - 1) times exp(-3 t / decay) with t the elapsed
seconds since the pre-delay; and the absolute value of each such sample is
bounded by exp(-3 t / decay). -/
theorem generateImpulseResponse_spec (sampleRate : ℕ) (decay preDelay : ℝ)
    (rand : ℕ → ℕ → ℝ) (_hdecay : 0 < decay) (_hpre : 0 ≤ preDelay)
    (hrand : ∀ ch i, 0 ≤ rand ch i ∧ rand ch i ≤ 1) :
    (generateImpulseResponse sampleRate decay preDelay rand).numberOfChannels = 2 ∧
    (generateImpulseResponse sampleRate decay preDelay rand).length
      = (sampleRate : ℝ) * decay ∧
    (∀ (ch i : ℕ), (i : ℤ) < preDelaySamples sampleRate preDelay →
      (generateImpulseResponse sampleRate decay preDelay rand).data ch i = 0) ∧
    (∀ (ch i : ℕ), preDelaySamples sampleRate preDelay ≤ (i : ℤ) →
      (generateImpulseResponse sampleRate decay preDelay rand).data ch i =
        (2 * rand ch i - 1) *
          Real.exp (-3 * (((i : ℝ) - ((preDelaySamples sampleRate preDelay : ℤ) : ℝ))
            / (sampleRate : ℝ)) / decay)) ∧
    (∀ (ch i : ℕ), preDelaySamples sampleRate preDelay ≤ (i : ℤ) →
      |(generateImpulseResponse sampleRate decay preDelay rand).data ch i| ≤
        Real.exp (-3 * (((i : ℝ) - ((preDelaySamples sampleRate preDelay : ℤ) : ℝ))
          / (sampleRate : ℝ)) / decay)) := by
  refine ⟨rfl, rfl, ?_, ?_, ?_⟩
  · intro ch i hi
    show impulseChannelData sampleRate decay preDelay rand ch i = 0
    rw [impulseChannelData, if_pos hi]
  · intro ch i hi
    show impulseChannelData sampleRate decay preDelay rand ch i = _
    rw [impulseChannelData, if_neg (not_lt.2 hi)]
    ring
  · intro ch i hi
    show |impulseChannelData sampleRate decay preDelay rand ch i| ≤ _
    rw [impulseChannelData, if_neg (not_lt.2 hi), abs_mul,
      abs_of_pos (Real.exp_pos _)]
    have hnoise : |rand ch i * 2 - 1| ≤ 1 :=
      abs_le.2 ⟨by linarith [(hrand ch i).1], by linarith [(hrand ch i).2]⟩
    calc |rand ch i * 2 - 1| * Real.exp _
        ≤ 1 * Real.exp _ := mul_le_mul_of_nonneg_right hnoise (Real.exp_pos _).le
      _ = Real.exp _ := one_mul _

/-- Witness for claim C6 at sampleRate 1, decay 1, preDelay 0 and the
constant random stream one half, evaluated at channel 0, index 0. -/
theorem generateImpulseResponse_spec_witness :
    (generateImpulseResponse 1 1 0 (fun _ _ => 1/2)).numberOfChannels = 2 ∧
    (generateImpulseResponse 1 1 0 (fun _ _ => 1/2)).data 0 0 = 0 ∧
    |(generateImpulseResponse 1 1 0 (fun _ _ => 1/2)).data 0 0| ≤ Real.exp 0 := by
  have h := generateImpulseResponse_spec 1 1 0 (fun _ _ => 1/2) (by norm_num) le_rfl
    (fun ch i => by norm_num)
  have hpd : preDelaySamples 1 0 = 0 := by
    simp [preDelaySamples]
  have hle : preDelaySamples 1 0 ≤ ((0 : ℕ) : ℤ) := by
    rw [hpd]
    exact Int.natCast_nonneg 0
  have h4 := h.2.2.2.1 0 0 hle
  have h5 := h.2.2.2.2 0 0 hle
  rw [hpd] at h4 h5
  refine ⟨h.1, ?_, ?_⟩
  · rw [h4]; norm_num
  · simpa using h5

/-- The master gain node of the AudioManager; gainValue mirrors
masterGain.gain.value. -/
structure MasterBus where
  gainValue : ℝ

/-- Embedding of AudioManager.setMasterVolume: stores
Math.max(0, Math.min(1, volume)) into the master gain value. -/
noncomputable def setMasterVolume (volume : ℝ) (_m : MasterBus) : MasterBus :=
  { gainValue := max 0 (min 1 volume) }

/-- Embedding of AudioManager.getMasterVolume: reads the master gain value. -/
def getMasterVolume (m : MasterBus) : ℝ := m.gainValue

/-- Claim C8: for every real v, after setMasterVolume(v) the master volume
reads back as the clamp of v into the unit interval, namely
max(0, min(1, v)); in particular the stored value always lies in that
interval. -/
theorem setMasterVolume_clamps (m : MasterBus) (v : ℝ) :
    getMasterVolume (setMasterVolume v m) = max 0 (min 1 v) ∧
    0 ≤ getMasterVolume (setMasterVolume v m) ∧
    getMasterVolume (setMasterVolume v m) ≤ 1 := by
  refine ⟨rfl, le_max_left _ _, ?_⟩
  exact max_le zero_le_one (min_le_left _ _)

/-- Mutable state of a positional AudioSource: the optional decoded buffer,
the optional live one-shot playback primitive (the AudioBufferSourceNode,
identified by its creation rank), the playing flag, the start time and pause
offset in seconds, the panner position, and the count of playback primitives
created so far (each play call that proceeds builds a fresh primitive via
createBufferSource and connects it to the panner). -/
structure AudioSourceState where
  buffer : Option ℕ
  source : Option ℕ
  isPlaying : Bool
  startTime : ℚ
  pauseTime : ℚ
  position : ℚ × ℚ × ℚ
  primitives : ℕ
deriving DecidableEq

/-- A freshly constructed AudioSource: no buffer, no live primitive,
stopped, at the origin. -/
def AudioSource.initial : AudioSourceState :=
  { buffer := none, source := none, isPlaying := false,
    startTime := 0, pauseTime := 0, position := (0, 0, 0), primitives := 0 }

/-- Embedding of AudioSource.setBuffer. -/
def AudioSource.setBuffer (b : ℕ) (s : AudioSourceState) : AudioSourceState :=
  { s with buffer := some b }

/-- Embedding of AudioSource.play(offset): an early return when no buffer is
set or the source is already playing; otherwise a fresh playback primitive is
created, connected and started; now stands for context.currentTime. -/
def AudioSource.play (offset now : ℚ) (s : AudioSourceState) : AudioSourceState :=
  if s.buffer = none ∨ s.isPlaying then s
  else
    { s with source := some s.primitives, primitives := s.primitives + 1,
             startTime := now - offset, isPlaying := true }

/-- Embedding of AudioSource.stop: an early return when no live playback
primitive exists; otherwise the primitive is stopped, disconnected and
dropped, and the pause offset is reset to 0. -/
def AudioSource.stop (s : AudioSourceState) : AudioSourceState :=
  if s.source = none then s
  else { s with source := none, isPlaying := false, pauseTime := 0 }

/-- Embedding of AudioSource.pause. -/
def AudioSource.pause (now : ℚ) (s : AudioSourceState) : AudioSourceState :=
  if s.isPlaying = false ∨ s.source = none then s
  else { s with pauseTime := now - s.startTime, source := none, isPlaying := false }

/-- Embedding of AudioSource.resume. -/
def AudioSource.resume (now : ℚ) (s : AudioSourceState) : AudioSourceState :=
  if s.isPlaying then s else AudioSource.play s.pauseTime now s

/-- Embedding of AudioSource.setPosition. -/
def AudioSource.setPosition (x y z : ℚ) (s : AudioSourceState) : AudioSourceState :=
  { s with position := (x, y, z) }

/-- Embedding of AudioSource.getIsPlaying. -/
def AudioSource.getIsPlaying (s : AudioSourceState) : Bool := s.isPlaying

/-- Claim C7: the invalid operations on a positional Source are silently
absorbed: play with no buffer set, play while already playing, and stop when
the source is already stopped with no live playback primitive all leave the
whole source state (playback state, pause offset, node graph) unchanged; the
embedded operations are total functions, so nothing is thrown. -/
theorem audioSource_invalid_ops_noop (s : AudioSourceState) (offset now : ℚ) :
    (s.buffer = none → AudioSource.play offset now s = s) ∧
    (s.isPlaying = true → AudioSource.play offset now s = s) ∧
    (s.isPlaying = false → s.source = none → AudioSource.stop s = s) := by
  refine ⟨?_, ?_, ?_⟩
  · intro h
    simp [AudioSource.play, h]
  · intro h
    simp [AudioSource.play, h]
  · intro _ h
    simp [AudioSource.stop, h]

/-- Witness for claim C7: the three no-op cases on concrete states, the
second one on a source that was set up with a buffer and started. -/
theorem audioSource_invalid_ops_noop_witness :
    (AudioSource.play 0 0 AudioSource.initial = AudioSource.initial) ∧
    (AudioSource.play 0 0 (AudioSource.play 0 0 (AudioSource.setBuffer 0 AudioSource.initial)) =
      AudioSource.play 0 0 (AudioSource.setBuffer 0 AudioSource.initial)) ∧
    (AudioSource.stop AudioSource.initial = AudioSource.initial) := by
  refine ⟨(audioSource_invalid_ops_noop AudioSource.initial 0 0).1 rfl,
    (audioSource_invalid_ops_noop _ 0 0).2.1 ?_,
    (audioSource_invalid_ops_noop AudioSource.initial 0 0).2.2 rfl rfl⟩
  decide

/-- State of a SoundPool: the member Sources built eagerly at construction
and the round-robin cursor. -/
structure SoundPoolState where
  sources : List AudioSourceState
  currentIndex : ℕ
deriving DecidableEq

/-- Embedding of the SoundPool constructor: poolSize member Sources are
built eagerly (no buffers yet) and the cursor starts at 0. -/
def SoundPool.init (poolSize : ℕ) : SoundPoolState :=
  { sources := List.replicate poolSize AudioSource.initial, currentIndex := 0 }

/-- Embedding of SoundPool.load: the single decoded buffer is fanned out to
every member Source via setBuffer. -/
def SoundPool.load (b : ℕ) (p : SoundPoolState) : SoundPoolState :=
  { p with sources := p.sources.map (AudioSource.setBuffer b) }

/-- The transformation SoundPool.play applies to the member Source at the
cursor: force-stop it when it is currently playing, optionally reposition
it, then play it from offset 0. -/
def SoundPool.voice (pos : Option (ℚ × ℚ × ℚ)) (now : ℚ)
    (source : AudioSourceState) : AudioSourceState :=
  let source₁ := if AudioSource.getIsPlaying source then AudioSource.stop source else source
  let source₂ := match pos with
    | some (x, y, z) => AudioSource.setPosition x y z source₁
    | none => source₁
  AudioSource.play 0 now source₂

/-- Embedding of SoundPool.play(position?): look up the member Source at the
round-robin cursor (none models the TypeError thrown when the lookup yields
no element), transform it via voice, store it back, and advance the cursor
by 1 modulo the pool size. -/
def SoundPool.play (pos : Option (ℚ × ℚ × ℚ)) (now : ℚ) (p : SoundPoolState) :
    Option SoundPoolState :=
  match p.sources[p.currentIndex]? with
  | none => none
  | some source =>
      some { sources := p.sources.set p.currentIndex (SoundPool.voice pos now source),
             currentIndex := (p.currentIndex + 1) % p.sources.length }

/-- k back-to-back SoundPool.play calls with no position argument. -/
def SoundPool.playN (now : ℚ) : ℕ → SoundPoolState → Option SoundPoolState
  | 0, p => some p
  | k + 1, p => (SoundPool.playN now k p).bind (SoundPool.play none now)

/-- A pool member right after construction and buffer fan-out. -/
def SoundPool.loadedMember (b : ℕ) : AudioSourceState :=
  AudioSource.setBuffer b AudioSource.initial

/-- A pool member after its first trigger. -/
def SoundPool.firedMember (b : ℕ) (now : ℚ) : AudioSourceState :=
  AudioSource.play 0 now (SoundPool.loadedMember b)

theorem getElem?_replicate_append_mid {α : Type} (P L : α) :
    ∀ k m, (List.replicate k P ++ L :: List.replicate m L)[k]? = some L := by
  intro k
  induction k with
  | zero => intro m; simp
  | succ n ih =>
      intro m
      simpa [List.replicate_succ] using ih m

theorem set_replicate_append_mid {α : Type} (P L : α) :
    ∀ k m, (List.replicate k P ++ L :: List.replicate m L).set k P =
      List.replicate (k + 1) P ++ List.replicate m L := by
  intro k
  induction k with
  | zero => intro m; simp
  | succ n ih =>
      intro m
      simp [List.replicate_succ, ih m]

/-- After k back-to-back plays (k at most the pool size) on a freshly loaded
pool of size N, the first k members have been triggered once, the remaining
members are untouched, and the cursor sits at k modulo N. -/
theorem SoundPool.playN_loaded (N b : ℕ) (now : ℚ) :
    ∀ k, k ≤ N →
      SoundPool.playN now k (SoundPool.load b (SoundPool.init N)) =
        some { sources := List.replicate k (SoundPool.firedMember b now) ++
                 List.replicate (N - k) (SoundPool.loadedMember b),
               currentIndex := k % N } := by
  intro k
  induction k with
  | zero =>
      intro _
      simp [SoundPool.playN, SoundPool.load, SoundPool.init, List.map_replicate,
        SoundPool.loadedMember, Nat.zero_mod]
  | succ n ih =>
      intro hk
      have hn : n < N := Nat.lt_of_succ_le hk
      have hrec := ih hn.le
      rw [SoundPool.playN, hrec, Option.some_bind]
      have hsplit : N - n = (N - (n + 1)) + 1 := by omega
      have hmid : (List.replicate n (SoundPool.firedMember b now) ++
          List.replicate (N - n) (SoundPool.loadedMember b))[n % N]? =
          some (SoundPool.loadedMember b) := by
        rw [Nat.mod_eq_of_lt hn, hsplit, List.replicate_succ]
        exact getElem?_replicate_append_mid _ _ n (N - (n + 1))
      have hlen : (List.replicate n (SoundPool.firedMember b now) ++
          List.replicate (N - n) (SoundPool.loadedMember b)).length = N := by
        simp [List.length_append, List.length_replicate]
        omega
      rw [SoundPool.play]
      simp only [hmid, hlen]
      have hvoice : SoundPool.voice none now (SoundPool.loadedMember b) =
          SoundPool.firedMember b now := by
        simp [SoundPool.voice, SoundPool.loadedMember, SoundPool.firedMember,
          AudioSource.getIsPlaying, AudioSource.setBuffer, AudioSource.initial]
      have hset : (List.replicate n (SoundPool.firedMember b now) ++
          List.replicate (N - n) (SoundPool.loadedMember b)).set (n % N)
            (SoundPool.voice none now (SoundPool.loadedMember b)) =
          List.replicate (n + 1) (SoundPool.firedMember b now) ++
            List.replicate (N - (n + 1)) (SoundPool.loadedMember b) := by
        rw [hvoice, Nat.mod_eq_of_lt hn, hsplit, List.replicate_succ]
        exact set_replicate_append_mid _ _ n (N - (n + 1))
      rw [hset]
      simp only [Nat.mod_eq_of_lt hn]

/-- Claim C2: on a SoundPool of size N at least 1 whose shared buffer has
been loaded, every play call selects the member Source at the round-robin
cursor and advances the cursor by 1 modulo the pool size; N+1 back-to-back
play calls succeed while the member list keeps exactly its N pre-built
Sources; and the (N+1)th call reuses slot 0, whose member is still playing
at that moment and is therefore force-stopped before a fresh playback
primitive is started on it. -/
theorem soundPool_roundRobin (N b : ℕ) (now : ℚ) (hN : 1 ≤ N) :
    (∀ (p : SoundPoolState) (pos : Option (ℚ × ℚ × ℚ)),
      p.currentIndex < p.sources.length →
      ∃ source, p.sources[p.currentIndex]? = some source ∧
        SoundPool.play pos now p =
          some { sources := p.sources.set p.currentIndex (SoundPool.voice pos now source),
                 currentIndex := (p.currentIndex + 1) % p.sources.length }) ∧
    (∀ k, k ≤ N + 1 →
      ∃ q, SoundPool.playN now k (SoundPool.load b (SoundPool.init N)) = some q ∧
        q.sources.length = N ∧ q.currentIndex = k % N) ∧
    (∃ q, SoundPool.playN now N (SoundPool.load b (SoundPool.init N)) = some q ∧
      q.currentIndex = 0 ∧
      q.sources[0]? = some (SoundPool.firedMember b now) ∧
      AudioSource.getIsPlaying (SoundPool.firedMember b now) = true ∧
      SoundPool.voice none now (SoundPool.firedMember b now) =
        AudioSource.play 0 now (AudioSource.stop (SoundPool.firedMember b now)) ∧
      ∃ q₁, SoundPool.play none now q = some q₁ ∧
        q₁.sources[0]? = some (SoundPool.voice none now (SoundPool.firedMember b now)) ∧
        (SoundPool.voice none now (SoundPool.firedMember b now)).primitives =
          (SoundPool.firedMember b now).primitives + 1) := by
  have hplaying : AudioSource.getIsPlaying (SoundPool.firedMember b now) = true := by
    simp [SoundPool.firedMember, SoundPool.loadedMember, AudioSource.play,
      AudioSource.setBuffer, AudioSource.initial, AudioSource.getIsPlaying]
  have hvoiceP : SoundPool.voice none now (SoundPool.firedMember b now) =
      AudioSource.play 0 now (AudioSource.stop (SoundPool.firedMember b now)) := by
    simp [SoundPool.voice, hplaying]
  have hstep : ∀ (p : SoundPoolState) (pos : Option (ℚ × ℚ × ℚ)),
      p.currentIndex < p.sources.length →
      ∃ source, p.sources[p.currentIndex]? = some source ∧
        SoundPool.play pos now p =
          some { sources := p.sources.set p.currentIndex (SoundPool.voice pos now source),
                 currentIndex := (p.currentIndex + 1) % p.sources.length } := by
    intro p pos hidx
    cases hp : p.sources[p.currentIndex]? with
    | none =>
        exfalso
        rw [List.getElem?_eq_none_iff] at hp
        omega
    | some source =>
        refine ⟨source, rfl, ?_⟩
        rw [SoundPool.play, hp]
  have hgetP : (List.replicate N (SoundPool.firedMember b now))[0]? =
      some (SoundPool.firedMember b now) := by
    rw [show N = (N - 1) + 1 from by omega, List.replicate_succ]
    simp
  have hafterN : SoundPool.playN now N (SoundPool.load b (SoundPool.init N)) =
      some { sources := List.replicate N (SoundPool.firedMember b now),
             currentIndex := 0 } := by
    have h := SoundPool.playN_loaded N b now N le_rfl
    simpa [Nat.sub_self, Nat.mod_self] using h
  have hstepN := hstep { sources := List.replicate N (SoundPool.firedMember b now),
                         currentIndex := 0 } none
    (by simp [List.length_replicate]; omega)
  rw [hgetP] at hstepN
  obtain ⟨source, hsrc, hplayq⟩ := hstepN
  obtain rfl : source = SoundPool.firedMember b now := by
    exact (Option.some_inj.1 hsrc).symm
  refine ⟨hstep, ?_, ?_⟩
  · intro k hk
    rcases le_or_lt k N with hkN | hkN
    · refine ⟨_, SoundPool.playN_loaded N b now k hkN, ?_, rfl⟩
      simp [List.length_append, List.length_replicate]
      omega
    · have hkeq : k = N + 1 := by omega
      subst hkeq
      rw [SoundPool.playN, hafterN, Option.some_bind, hplayq]
      refine ⟨_, rfl, ?_, ?_⟩
      · simp [List.length_set, List.length_replicate]
      · simp only [List.length_replicate]
        exact (Nat.add_mod_left N 1).symm
  · refine ⟨_, hafterN, rfl, hgetP, hplaying, hvoiceP, ?_⟩
    refine ⟨_, hplayq, ?_, ?_⟩
    · show ((List.replicate N (SoundPool.firedMember b now)).set 0
        (SoundPool.voice none now (SoundPool.firedMember b now)))[0]? = _
      rw [show N = (N - 1) + 1 from by omega, List.replicate_succ, List.set_cons_zero]
      simp
    · simp [SoundPool.voice, AudioSource.getIsPlaying, SoundPool.firedMember,
        SoundPool.loadedMember, AudioSource.play, AudioSource.stop,
        AudioSource.setBuffer, AudioSource.initial]

/-- Witness for claim C2 at pool size 2, buffer 0, current time 0: the third
play call reuses slot 0 of a pool that still has exactly 2 members. -/
theorem soundPool_roundRobin_witness :
    (∃ q, SoundPool.playN 0 3 (SoundPool.load 0 (SoundPool.init 2)) = some q ∧
      q.sources.length = 2 ∧ q.currentIndex = 3 % 2) ∧
    (∃ q, SoundPool.playN 0 2 (SoundPool.load 0 (SoundPool.init 2)) = some q ∧
      q.currentIndex = 0 ∧
      q.sources[0]? = some (SoundPool.firedMember 0 0) ∧
      AudioSource.getIsPlaying (SoundPool.firedMember 0 0) = true ∧
      SoundPool.voice none 0 (SoundPool.firedMember 0 0) =
        AudioSource.play 0 0 (AudioSource.stop (SoundPool.firedMember 0 0)) ∧
      ∃ q₁, SoundPool.play none 0 q = some q₁ ∧
        q₁.sources[0]? = some (SoundPool.voice none 0 (SoundPool.firedMember 0 0)) ∧
        (SoundPool.voice none 0 (SoundPool.firedMember 0 0)).primitives =
          (SoundPool.firedMember 0 0).primitives + 1) := by
  have h := soundPool_roundRobin 2 0 0 (by norm_num)
  exact ⟨h.2.1 3 (by norm_num), h.2.2⟩

/-- Claim C10: whenever the cursor of a SoundPool lies below the member
count (as established by the constructor for poolSize at least 1), the slot
lookup inside play succeeds and the resulting cursor again lies below the
member count, so the missing-element dereference is unreachable; with
poolSize 0 the very first lookup yields no Source and play faults. -/
theorem soundPool_cursor_invariant (pos : Option (ℚ × ℚ × ℚ)) (now : ℚ) :
    (∀ p : SoundPoolState, 1 ≤ p.sources.length → p.currentIndex < p.sources.length →
      ∃ q, SoundPool.play pos now p = some q ∧
        q.sources.length = p.sources.length ∧
        q.currentIndex < q.sources.length) ∧
    (∀ poolSize, 1 ≤ poolSize →
      (SoundPool.init poolSize).currentIndex < (SoundPool.init poolSize).sources.length) ∧
    SoundPool.play pos now (SoundPool.init 0) = none := by
  refine ⟨?_, ?_, ?_⟩
  · intro p hlen hidx
    cases hp : p.sources[p.currentIndex]? with
    | none =>
        exfalso
        rw [List.getElem?_eq_none_iff] at hp
        omega
    | some source =>
        rw [SoundPool.play, hp]
        refine ⟨_, rfl, ?_, ?_⟩
        · simp [List.length_set]
        · simp [List.length_set]
          exact Nat.mod_lt _ (by omega)
  · intro poolSize hps
    simp [SoundPool.init, List.length_replicate]
    omega
  · simp [SoundPool.play, SoundPool.init]

/-- Witness for claim C10: the invariant step applied to a fresh pool of
size 1, and the constructor invariant at poolSize 1. -/
theorem soundPool_cursor_invariant_witness :
    (∃ q, SoundPool.play none 0 (SoundPool.init 1) = some q ∧
      q.sources.length = (SoundPool.init 1).sources.length ∧
      q.currentIndex < q.sources.length) ∧
    (SoundPool.init 1).currentIndex < (SoundPool.init 1).sources.length := by
  have h := soundPool_cursor_invariant none 0
  exact ⟨h.1 (SoundPool.init 1) (by decide) (by decide), h.2.1 1 (by norm_num)⟩

/-- Commands a caller can issue on an AmbientSource; durations are in
seconds. The fadeIn duration only shapes the gain ramp, the fadeOut
duration also arms the deferred stop timer. -/
inductive AmbientCmd where
  | play
  | stop
  | fadeIn (duration : ℤ)
  | fadeOut (duration : ℤ)
deriving DecidableEq

/-- Mutable state of an AmbientSource: the optional decoded buffer, the
optional live looping playback primitive, the playing flag, the gain
setpoint (a linear ramp is modeled by its value at the end of the ramp),
the configured target volume, and the fire times (in milliseconds, the unit
setTimeout receives) of the deferred stop timers armed by fadeOut. The code
never stores or clears the setTimeout handle, so entries leave this list
only by firing. -/
structure AmbientState where
  buffer : Option ℕ
  source : Option Unit
  isPlaying : Bool
  gain : ℚ
  volume : ℚ
  pendingStops : List ℤ
deriving DecidableEq

/-- Embedding of AmbientSource.play: an early return when no buffer is set
or the source is already playing; otherwise a looping playback primitive is
created, connected and started. -/
def AmbientSource.play (s : AmbientState) : AmbientState :=
  if s.buffer = none ∨ s.isPlaying then s
  else { s with source := some (), isPlaying := true }

/-- Embedding of AmbientSource.stop: an early return when no live playback
primitive exists. -/
def AmbientSource.stop (s : AmbientState) : AmbientState :=
  if s.source = none then s
  else { s with source := none, isPlaying := false }

/-- Embedding of AmbientSource.fadeIn(duration): early return without a
buffer; otherwise the gain is set to 0, play is called, and the gain ramps
linearly to the configured volume. No pending deferred stop is touched. -/
def AmbientSource.fadeIn (s : AmbientState) : AmbientState :=
  if s.buffer = none then s
  else
    let s₁ := AmbientSource.play { s with gain := 0 }
    { s₁ with gain := s₁.volume }

/-- Embedding of AmbientSource.fadeOut(duration) issued at time t
milliseconds: the gain ramps linearly to 0 and setTimeout arms a deferred
stop firing at t plus duration times 1000 milliseconds; the timer handle is
discarded by the code. -/
def AmbientSource.fadeOut (t duration : ℤ) (s : AmbientState) : AmbientState :=
  { s with gain := 0, pendingStops := s.pendingStops ++ [t + duration * 1000] }

/-- Run one caller command at time t milliseconds. -/
def AmbientSource.runCmd (t : ℤ) (c : AmbientCmd) (s : AmbientState) : AmbientState :=
  match c with
  | .play => AmbientSource.play s
  | .stop => AmbientSource.stop s
  | .fadeIn _ => AmbientSource.fadeIn s
  | .fadeOut d => AmbientSource.fadeOut t d s

/-- Fire every deferred stop due at or before time t milliseconds (the
event loop runs timer callbacks before code issued later), removing the
fired entries. -/
def AmbientSource.fireDue (t : ℤ) (s : AmbientState) : AmbientState :=
  (s.pendingStops.filter (fun ft => decide (ft ≤ t))).foldl
    (fun st _ => AmbientSource.stop st)
    { s with pendingStops := s.pendingStops.filter (fun ft => decide (¬ ft ≤ t)) }

/-- Process timestamped commands in order, firing due timers before each
command. -/
def AmbientSource.runCmds : List (ℤ × AmbientCmd) → AmbientState → AmbientState
  | [], s => s
  | (t, c) :: rest, s =>
      AmbientSource.runCmds rest (AmbientSource.runCmd t c (AmbientSource.fireDue t s))

/-- Process the commands, then let every timer still armed fire (nothing in
the code ever cancels them). -/
def AmbientSource.runTimeline (cmds : List (ℤ × AmbientCmd)) (s : AmbientState) :
    AmbientState :=
  let s₁ := AmbientSource.runCmds cmds s
  s₁.pendingStops.foldl (fun st _ => AmbientSource.stop st) { s₁ with pendingStops := [] }

/-- An AmbientSource whose buffer has been loaded, not yet playing. -/
def AmbientSource.loaded : AmbientState :=
  { buffer := some 0, source := none, isPlaying := false, gain := 1, volume := 1,
    pendingStops := [] }

/-- The claim C1 scenario: play at time 0, fadeOut(1) at time 0, fadeIn(1)
at time 200 milliseconds, well before the fade-out duration of 1 second has
elapsed. -/
def fadeScenario : List (ℤ × AmbientCmd) :=
  [(0, AmbientCmd.play), (0, AmbientCmd.fadeOut 1), (200, AmbientCmd.fadeIn 1)]

/-- Claim C1 fails on the code: after fadeOut(1) and a fadeIn(1) issued at
200 milliseconds, the source is playing and the deferred stop armed for
1000 milliseconds is still pending (fadeIn cancelled nothing, since the
code discards the setTimeout handle); when that timer fires, the source is
stopped. -/
theorem ambient_fadeOut_stop_not_cancelled :
    (AmbientSource.runCmds fadeScenario AmbientSource.loaded).isPlaying = true ∧
    (AmbientSource.runCmds fadeScenario AmbientSource.loaded).pendingStops = [1000] ∧
    (AmbientSource.runTimeline fadeScenario AmbientSource.loaded).isPlaying = false ∧
    (AmbientSource.runTimeline fadeScenario AmbientSource.loaded).source = none := by
  decide

/-- Program counter of one loadBuffer(url) caller: the synchronous cache
check, the awaited fetch-plus-decode block, the cache write, and the return.
The await boundaries inside loadBuffer make these separately scheduled
steps. -/
inductive LoadStep where
  | checkCache
  | fetchDecode
  | writeCache
  | done
deriving DecidableEq

/-- One loadBuffer caller: its program counter and whether it has performed
its own fetch-plus-decode. -/
structure LoadTask where
  pc : LoadStep
  fetched : Bool
deriving DecidableEq

/-- Shared state of two concurrent first-time loadBuffer calls for the same
URL: whether the cache holds the URL, how many fetch-plus-decode operations
and cache writes have run, and the two callers. -/
structure LoadState where
  cacheHas : Bool
  fetchCount : ℕ
  writeCount : ℕ
  taskA : LoadTask
  taskB : LoadTask
deriving DecidableEq

/-- One atomic step of a loadBuffer caller against the current cache state;
also reports whether the step fetched and whether it wrote the cache. -/
def LoadTask.step (cacheHas : Bool) (tk : LoadTask) : LoadTask × Bool × Bool :=
  match tk.pc with
  | .checkCache =>
      if cacheHas then ({ tk with pc := .done }, false, false)
      else ({ tk with pc := .fetchDecode }, false, false)
  | .fetchDecode => ({ tk with pc := .writeCache, fetched := true }, true, false)
  | .writeCache => ({ tk with pc := .done }, false, true)
  | .done => (tk, false, false)

/-- One scheduler step: true steps caller A, false steps caller B. -/
def LoadState.step (who : Bool) (st : LoadState) : LoadState :=
  if who then
    let r := LoadTask.step st.cacheHas st.taskA
    { st with taskA := r.1,
              cacheHas := st.cacheHas || r.2.2,
              fetchCount := st.fetchCount + (if r.2.1 then 1 else 0),
              writeCount := st.writeCount + (if r.2.2 then 1 else 0) }
  else
    let r := LoadTask.step st.cacheHas st.taskB
    { st with taskB := r.1,
              cacheHas := st.cacheHas || r.2.2,
              fetchCount := st.fetchCount + (if r.2.1 then 1 else 0),
              writeCount := st.writeCount + (if r.2.2 then 1 else 0) }

/-- Run an interleaving. -/
def LoadState.run (sched : List Bool) (st : LoadState) : LoadState :=
  sched.foldl (fun s w => LoadState.step w s) st

/-- Both callers about to issue their first-time loadBuffer on an empty
cache. -/
def LoadState.initial : LoadState :=
  { cacheHas := false, fetchCount := 0, writeCount := 0,
    taskA := { pc := LoadStep.checkCache, fetched := false },
    taskB := { pc := LoadStep.checkCache, fetched := false } }

/-- Counterexample to claim C9 as stated: in the interleaving where both
callers pass the cache check before either has written, both complete but
the fetch-plus-decode ran twice and the cache was written twice, not once. -/
theorem loadBuffer_concurrent_double_fetch :
    (LoadState.run [true, false, true, true, false, false] LoadState.initial).taskA.pc
        = LoadStep.done ∧
    (LoadState.run [true, false, true, true, false, false] LoadState.initial).taskB.pc
        = LoadStep.done ∧
    (LoadState.run [true, false, true, true, false, false] LoadState.initial).fetchCount = 2 ∧
    (LoadState.run [true, false, true, true, false, false] LoadState.initial).writeCount = 2 ∧
    (LoadState.run [true, false, true, true, false, false] LoadState.initial).cacheHas = true := by
  decide

/-- Inductive invariant of the two-caller loadBuffer system. -/
def LoadInv (st : LoadState) : Prop :=
  (st.taskA.pc = LoadStep.checkCache ∨ st.taskA.pc = LoadStep.fetchDecode →
    st.taskA.fetched = false) ∧
  (st.taskB.pc = LoadStep.checkCache ∨ st.taskB.pc = LoadStep.fetchDecode →
    st.taskB.fetched = false) ∧
  (st.taskA.pc = LoadStep.writeCache → st.taskA.fetched = true) ∧
  (st.taskB.pc = LoadStep.writeCache → st.taskB.fetched = true) ∧
  (st.taskA.pc = LoadStep.done → st.cacheHas = true) ∧
  (st.taskB.pc = LoadStep.done → st.cacheHas = true) ∧
  (st.cacheHas = true → st.taskA.fetched = true ∨ st.taskB.fetched = true) ∧
  st.fetchCount = (if st.taskA.fetched then 1 else 0) +
    (if st.taskB.fetched then 1 else 0)

theorem LoadState.step_inv (who : Bool) (st : LoadState) (h : LoadInv st) :
    LoadInv (LoadState.step who st) := by
  obtain ⟨h1, h2, h3, h4, h5, h6, h7, h8⟩ := h
  cases who <;> rcases hA : st.taskA.pc <;> rcases hB : st.taskB.pc <;>
    rcases hc : st.cacheHas <;>
    simp_all [LoadState.step, LoadTask.step, LoadInv]

theorem LoadState.run_inv (sched : List Bool) :
    ∀ st : LoadState, LoadInv st → LoadInv (LoadState.run sched st) := by
  induction sched with
  | nil => intro st h; exact h
  | cons w rest ih =>
      intro st h
      exact ih (LoadState.step w st) (LoadState.step_inv w st h)

/-- Claim C9 as amended: two concurrent first-time loadBuffer calls for the
same URL are not de-duplicated; depending on the interleaving each caller
may trigger its own fetch-plus-decode (between 1 and 2 fetches in total),
but every interleaving that completes both callers leaves the cache
populated for the URL. -/
theorem loadBuffer_concurrent_cache_populated (sched : List Bool)
    (hA : (LoadState.run sched LoadState.initial).taskA.pc = LoadStep.done)
    (_hB : (LoadState.run sched LoadState.initial).taskB.pc = LoadStep.done) :
    (LoadState.run sched LoadState.initial).cacheHas = true ∧
    1 ≤ (LoadState.run sched LoadState.initial).fetchCount ∧
    (LoadState.run sched LoadState.initial).fetchCount ≤ 2 := by
  have hinv : LoadInv (LoadState.run sched LoadState.initial) :=
    LoadState.run_inv sched LoadState.initial (by simp [LoadInv, LoadState.initial])
  obtain ⟨h1, h2, h3, h4, h5, h6, h7, h8⟩ := hinv
  have hcache : (LoadState.run sched LoadState.initial).cacheHas = true := h5 hA
  refine ⟨hcache, ?_, ?_⟩
  · rw [h8]
    rcases h7 hcache with hfa | hfb
    · simp [hfa]
    · simp [hfb]
  · rw [h8]
    cases (LoadState.run sched LoadState.initial).taskA.fetched <;>
      cases (LoadState.run sched LoadState.initial).taskB.fetched <;> simp

/-- Witness for the amended claim C9: in the interleaving where caller A
completes before caller B first checks the cache, both complete, the cache
is populated, and only one fetch ran in total. -/
theorem loadBuffer_concurrent_cache_populated_witness :
    (LoadState.run [true, true, true, false] LoadState.initial).cacheHas = true ∧
    1 ≤ (LoadState.run [true, true, true, false] LoadState.initial).fetchCount ∧
    (LoadState.run [true, true, true, false] LoadState.initial).fetchCount ≤ 2 :=
  loadBuffer_concurrent_cache_populated [true, true, true, false]
    (by decide) (by decide)

/-- The device audio graph: the directed connect edges and a counter
handing out fresh node identifiers. -/
structure AudioGraph where
  edges : List (ℕ × ℕ)
  nextId : ℕ
deriving DecidableEq

/-- Node creation (createGain, createBiquadFilter, createConvolver):
allocate a fresh identifier. -/
def AudioGraph.createNode (g : AudioGraph) : ℕ × AudioGraph :=
  (g.nextId, { g with nextId := g.nextId + 1 })

/-- node.connect(target): record the edge. -/
def AudioGraph.connect (a b : ℕ) (g : AudioGraph) : AudioGraph :=
  { g with edges := (a, b) :: g.edges }

/-- node.disconnect(): drop every outgoing edge of the node. -/
def AudioGraph.disconnect (n : ℕ) (g : AudioGraph) : AudioGraph :=
  { g with edges := g.edges.filter (fun ed => decide (ed.1 ≠ n)) }

/-- The EnvironmentType union. -/
inductive EnvironmentType where
  | outdoor
  | indoor
  | cave
  | underwater
  | none
deriving DecidableEq

/-- The ReverbConfig shape; only presence matters to the node graph. -/
structure ReverbConfig where
  decay : Option ℚ
  preDelay : Option ℚ
  wet : Option ℚ
  dry : Option ℚ
deriving DecidableEq

/-- The EnvironmentConfig shape. -/
structure EnvironmentConfig where
  type : EnvironmentType
  reverb : Option ReverbConfig
  lowpassFrequency : Option ℚ
  highpassFrequency : Option ℚ
deriving DecidableEq

/-- JS truthiness of an optional numeric config field: present and not 0,
mirroring the bare if (config.lowpassFrequency) guards. -/
def numTruthy : Option ℚ → Bool
  | Option.none => false
  | Option.some f => decide (f ≠ 0)

/-- The five nodes owned by a ReverbEffect. -/
structure ReverbNodes where
  input : ℕ
  output : ℕ
  convolver : ℕ
  wetGain : ℕ
  dryGain : ℕ
deriving DecidableEq

/-- Embedding of the ReverbEffect constructor: allocate the input, output,
convolver, wet gain and dry gain in creation order, then wire
input → convolver → wetGain → output and input → dryGain → output. -/
def ReverbEffect.build (g : AudioGraph) : ReverbNodes × AudioGraph :=
  let pi := g.createNode
  let po := pi.2.createNode
  let pc := po.2.createNode
  let pw := pc.2.createNode
  let pd := pw.2.createNode
  let g₁ := ((((pd.2.connect pi.1 pc.1).connect pi.1 pd.1).connect pc.1 pw.1).connect
    pw.1 po.1).connect pd.1 po.1
  ({ input := pi.1, output := po.1, convolver := pc.1,
     wetGain := pw.1, dryGain := pd.1 }, g₁)

/-- The nodes owned by an EnvironmentEffect. -/
structure EnvironmentNodes where
  input : ℕ
  output : ℕ
  lowpassFilter : Option ℕ
  highpassFilter : Option ℕ
  reverb : Option ReverbNodes
deriving DecidableEq

/-- Every node owned by an EnvironmentEffect, in the order its dispose
method disconnects them. -/
def envNodeList (e : EnvironmentNodes) : List ℕ :=
  [e.input, e.output] ++ e.lowpassFilter.toList ++ e.highpassFilter.toList ++
    (match e.reverb with
     | Option.none => []
     | Option.some r => [r.input, r.output, r.convolver, r.wetGain, r.dryGain])

/-- Embedding of EnvironmentEffect.dispose (with ReverbEffect.dispose
inlined): disconnect every owned node. -/
def EnvironmentEffect.dispose (e : EnvironmentNodes) (g : AudioGraph) : AudioGraph :=
  (envNodeList e).foldl (fun g' n => g'.disconnect n) g

/-- One optional filter block of applyEnvironment: when the config field is
truthy, create the filter node, connect the current chain end to it and make
it the new chain end; otherwise skip the stage. Returns the optional filter
node, the chain end, and the graph. -/
def EnvironmentEffect.buildStage (enabled : Bool) (current : ℕ) (g : AudioGraph) :
    Option ℕ × ℕ × AudioGraph :=
  if enabled then
    let pf := g.createNode
    (Option.some pf.1, pf.1, pf.2.connect current pf.1)
  else (Option.none, current, g)

/-- Embedding of EnvironmentEffect.applyEnvironment after its initial
dispose: recreate the input and output gains, then chain the optional
lowpass filter, optional highpass filter and optional reverb between them;
absent stages are skipped, and the reverb stage also requires the type to
differ from none. -/
def EnvironmentEffect.applyEnvironment (config : EnvironmentConfig) (g₀ : AudioGraph) :
    EnvironmentNodes × AudioGraph :=
  let pin := g₀.createNode
  let pout := pin.2.createNode
  let stage₁ := EnvironmentEffect.buildStage (numTruthy config.lowpassFrequency)
    pin.1 pout.2
  let stage₂ := EnvironmentEffect.buildStage (numTruthy config.highpassFrequency)
    stage₁.2.1 stage₁.2.2
  if config.reverb.isSome && decide (config.type ≠ EnvironmentType.none) then
    let pr := ReverbEffect.build stage₂.2.2
    ({ input := pin.1, output := pout.1, lowpassFilter := stage₁.1,
       highpassFilter := stage₂.1, reverb := Option.some pr.1 },
     (pr.2.connect stage₂.2.1 pr.1.input).connect pr.1.output pout.1)
  else
    ({ input := pin.1, output := pout.1, lowpassFilter := stage₁.1,
       highpassFilter := stage₂.1, reverb := Option.none },
     stage₂.2.2.connect stage₂.2.1 pout.1)

/-- Embedding of the EnvironmentEffect constructor: create an input and an
output gain, then run applyEnvironment, which first disposes the freshly
created (still unconnected) pair and then builds the chain for the
config. -/
def EnvironmentEffect.create (config : EnvironmentConfig) (g : AudioGraph) :
    EnvironmentNodes × AudioGraph :=
  let p₁ := g.createNode
  let p₂ := p₁.2.createNode
  let e₀ : EnvironmentNodes :=
    { input := p₁.1, output := p₂.1, lowpassFilter := Option.none,
      highpassFilter := Option.none, reverb := Option.none }
  EnvironmentEffect.applyEnvironment config (EnvironmentEffect.dispose e₀ p₂.2)

/-- The graph-facing state of the AudioManager: the current graph, the
master gain and context destination nodes, and the active environment. -/
structure AudioManagerState where
  graph : AudioGraph
  masterGain : ℕ
  destination : ℕ
  environment : Option EnvironmentNodes
deriving DecidableEq

/-- Embedding of the AudioManager constructor: the context destination
exists, a master gain is created and connected to it, no environment is
active. -/
def AudioManager.init : AudioManagerState :=
  let g₀ : AudioGraph := { edges := [], nextId := 0 }
  let pd := g₀.createNode
  let pm := pd.2.createNode
  { graph := pm.2.connect pm.1 pd.1,
    masterGain := pm.1, destination := pd.1, environment := Option.none }

/-- Embedding of AudioManager.setEnvironment: dispose the previous
environment if there is one, construct a new EnvironmentEffect, and connect
its output to the master gain. -/
def AudioManager.setEnvironment (config : EnvironmentConfig) (m : AudioManagerState) :
    AudioManagerState :=
  let g₁ := match m.environment with
    | Option.none => m.graph
    | Option.some env => EnvironmentEffect.dispose env m.graph
  let pe := EnvironmentEffect.create config g₁
  { m with graph := pe.2.connect pe.1.output m.masterGain,
           environment := Option.some pe.1 }

/-- A sequence of setEnvironment calls. -/
def AudioManager.setEnvironments (configs : List EnvironmentConfig)
    (m : AudioManagerState) : AudioManagerState :=
  configs.foldl (fun m' c => AudioManager.setEnvironment c m') m

theorem AudioGraph.mem_foldl_disconnect (L : List ℕ) :
    ∀ (g : AudioGraph) (ed : ℕ × ℕ),
      ed ∈ (L.foldl (fun g' n => g'.disconnect n) g).edges ↔
        ed ∈ g.edges ∧ ed.1 ∉ L := by
  induction L with
  | nil =>
      intro g ed
      simp
  | cons n L ih =>
      intro g ed
      rw [List.foldl_cons, ih]
      simp only [AudioGraph.disconnect, List.mem_filter, List.mem_cons,
        decide_eq_true_eq]
      tauto

theorem AudioGraph.foldl_disconnect_nextId (L : List ℕ) :
    ∀ g : AudioGraph, (L.foldl (fun g' n => g'.disconnect n) g).nextId = g.nextId := by
  induction L with
  | nil => intro g; rfl
  | cons n L ih =>
      intro g
      rw [List.foldl_cons, ih]
      rfl

theorem EnvironmentEffect.dispose_edges (e : EnvironmentNodes) (g : AudioGraph)
    (ed : ℕ × ℕ) :
    ed ∈ (EnvironmentEffect.dispose e g).edges ↔
      ed ∈ g.edges ∧ ed.1 ∉ envNodeList e :=
  AudioGraph.mem_foldl_disconnect (envNodeList e) g ed

theorem EnvironmentEffect.dispose_nextId (e : EnvironmentNodes) (g : AudioGraph) :
    (EnvironmentEffect.dispose e g).nextId = g.nextId :=
  AudioGraph.foldl_disconnect_nextId (envNodeList e) g

theorem EnvironmentEffect.buildStage_true (current : ℕ) (g : AudioGraph) :
    EnvironmentEffect.buildStage true current g =
      (Option.some g.nextId, g.nextId,
        { edges := (current, g.nextId) :: g.edges, nextId := g.nextId + 1 }) := rfl

theorem EnvironmentEffect.buildStage_false (current : ℕ) (g : AudioGraph) :
    EnvironmentEffect.buildStage false current g = (Option.none, current, g) := rfl

theorem ReverbEffect.build_eq (g : AudioGraph) :
    ReverbEffect.build g =
      ({ input := g.nextId, output := g.nextId + 1, convolver := g.nextId + 2,
         wetGain := g.nextId + 3, dryGain := g.nextId + 4 },
       { edges := (g.nextId + 4, g.nextId + 1) :: (g.nextId + 3, g.nextId + 1) ::
           (g.nextId + 2, g.nextId + 3) :: (g.nextId, g.nextId + 4) ::
           (g.nextId, g.nextId + 2) :: g.edges,
         nextId := g.nextId + 5 }) := rfl

theorem EnvironmentEffect.applyEnvironment_spec (config : EnvironmentConfig)
    (g : AudioGraph) :
    (∀ ed ∈ (EnvironmentEffect.applyEnvironment config g).2.edges,
      ed ∈ g.edges ∨
        (ed.1 ∈ envNodeList (EnvironmentEffect.applyEnvironment config g).1 ∧
         ed.2 ∈ envNodeList (EnvironmentEffect.applyEnvironment config g).1)) ∧
    (∀ n ∈ envNodeList (EnvironmentEffect.applyEnvironment config g).1,
      g.nextId ≤ n ∧ n < (EnvironmentEffect.applyEnvironment config g).2.nextId) ∧
    g.nextId ≤ (EnvironmentEffect.applyEnvironment config g).2.nextId := by
  cases hlp : numTruthy config.lowpassFrequency <;>
  cases hhp : numTruthy config.highpassFrequency <;>
  cases hrv : (config.reverb.isSome && decide (config.type ≠ EnvironmentType.none)) <;>
  (simp only [EnvironmentEffect.applyEnvironment, AudioGraph.createNode, hlp, hhp, hrv,
     EnvironmentEffect.buildStage_true, EnvironmentEffect.buildStage_false,
     ReverbEffect.build_eq, AudioGraph.connect, if_true, if_false,
     Bool.false_eq_true, Bool.true_eq_false, ite_false, ite_true]
   refine ⟨?_, ?_, ?_⟩
   · intro ed hed
     obtain ⟨x, y⟩ := ed
     simp only [envNodeList, Option.toList, List.mem_cons, List.mem_append,
       List.mem_singleton, List.not_mem_nil, List.nil_append, List.cons_append,
       List.append_nil, or_false, Prod.mk.injEq] at hed ⊢
     tauto
   · intro n hn
     simp only [envNodeList, Option.toList, List.mem_cons, List.mem_append,
       List.mem_singleton, List.not_mem_nil, List.nil_append, List.cons_append,
       List.append_nil, or_false] at hn
     omega
   · omega)

theorem output_mem_envNodeList (e : EnvironmentNodes) : e.output ∈ envNodeList e := by
  simp [envNodeList]

theorem EnvironmentEffect.create_spec (config : EnvironmentConfig) (g : AudioGraph)
    (hb : ∀ ed ∈ g.edges, ed.1 < g.nextId) :
    (∀ ed ∈ (EnvironmentEffect.create config g).2.edges,
      ed ∈ g.edges ∨
        (ed.1 ∈ envNodeList (EnvironmentEffect.create config g).1 ∧
         ed.2 ∈ envNodeList (EnvironmentEffect.create config g).1)) ∧
    (∀ n ∈ envNodeList (EnvironmentEffect.create config g).1,
      g.nextId ≤ n ∧ n < (EnvironmentEffect.create config g).2.nextId) ∧
    g.nextId ≤ (EnvironmentEffect.create config g).2.nextId := by
  rw [show EnvironmentEffect.create config g =
      EnvironmentEffect.applyEnvironment config
        (EnvironmentEffect.dispose
          { input := g.nextId, output := g.nextId + 1, lowpassFilter := Option.none,
            highpassFilter := Option.none, reverb := Option.none }
          { edges := g.edges, nextId := g.nextId + 2 }) from rfl]
  set G := EnvironmentEffect.dispose
    { input := g.nextId, output := g.nextId + 1, lowpassFilter := Option.none,
      highpassFilter := Option.none, reverb := Option.none }
    { edges := g.edges, nextId := g.nextId + 2 } with hGdef
  have hGn : G.nextId = g.nextId + 2 := by
    rw [hGdef, EnvironmentEffect.dispose_nextId]
  have hGe : ∀ ed : ℕ × ℕ, ed ∈ G.edges ↔ ed ∈ g.edges := by
    intro ed
    rw [hGdef, EnvironmentEffect.dispose_edges]
    constructor
    · rintro ⟨h, _⟩
      exact h
    · intro h
      refine ⟨h, ?_⟩
      have hlt := hb ed h
      simp only [envNodeList, Option.toList, List.mem_cons, List.mem_append,
        List.mem_singleton, List.not_mem_nil, List.nil_append, List.cons_append,
        List.append_nil, or_false]
      omega
  obtain ⟨hA, hB, hC⟩ := EnvironmentEffect.applyEnvironment_spec config G
  refine ⟨?_, ?_, ?_⟩
  · intro ed hed
    rcases hA ed hed with h | h
    · exact Or.inl ((hGe ed).1 h)
    · exact Or.inr h
  · intro n hn
    have h := hB n hn
    omega
  · omega

/-- Inductive invariant of the manager graph across setEnvironment calls:
the master gain is node 1 and feeds the context destination, node 0; node
identifiers stay below the allocation counter; and either no environment is
active yet and only the master wire exists, or exactly the active
environment chain is wired: its nodes are non-master nodes, every edge
leaves the master gain (toward the destination) or a chain node (toward the
chain or the master gain), only the chain output feeds the master gain, and
it does feed it. -/
def ManagerInv (m : AudioManagerState) : Prop :=
  m.masterGain = 1 ∧
  m.destination = 0 ∧
  2 ≤ m.graph.nextId ∧
  (∀ ed ∈ m.graph.edges, ed.1 < m.graph.nextId ∧ ed.2 < m.graph.nextId) ∧
  (m.environment = Option.none → m.graph.edges = [(m.masterGain, m.destination)]) ∧
  (∀ env, m.environment = Option.some env →
      (∀ n ∈ envNodeList env, 2 ≤ n ∧ n < m.graph.nextId) ∧
      (∀ ed ∈ m.graph.edges, ed.1 = m.masterGain ∨ ed.1 ∈ envNodeList env) ∧
      (∀ ed ∈ m.graph.edges, ed.1 = m.masterGain → ed.2 = m.destination) ∧
      (∀ ed ∈ m.graph.edges, ed.1 ∈ envNodeList env →
         ed.2 ∈ envNodeList env ∨ ed.2 = m.masterGain) ∧
      (∀ ed ∈ m.graph.edges, ed.2 = m.masterGain → ed.1 = env.output) ∧
      (env.output, m.masterGain) ∈ m.graph.edges)

theorem ManagerInv.connect_create (m : AudioManagerState) (config : EnvironmentConfig)
    (g₁ : AudioGraph)
    (hmg : m.masterGain = 1) (hdst : m.destination = 0)
    (hn2 : 2 ≤ g₁.nextId)
    (hbound : ∀ ed ∈ g₁.edges, ed.1 < g₁.nextId ∧ ed.2 < g₁.nextId)
    (hsrc : ∀ ed ∈ g₁.edges, ed.1 = m.masterGain)
    (htgt : ∀ ed ∈ g₁.edges, ed.2 = m.destination) :
    ManagerInv
      { graph := AudioGraph.connect (EnvironmentEffect.create config g₁).1.output
          m.masterGain (EnvironmentEffect.create config g₁).2,
        masterGain := m.masterGain, destination := m.destination,
        environment := Option.some (EnvironmentEffect.create config g₁).1 } := by
  have hble : ∀ ed ∈ g₁.edges, ed.1 < g₁.nextId := fun ed hed => (hbound ed hed).1
  obtain ⟨cA, cB, cC⟩ := EnvironmentEffect.create_spec config g₁ hble
  have hout := cB _ (output_mem_envNodeList (EnvironmentEffect.create config g₁).1)
  refine ⟨hmg, hdst, ?_, ?_, ?_, ?_⟩
  · show 2 ≤ (EnvironmentEffect.create config g₁).2.nextId
    omega
  · intro ed hed
    show ed.1 < (EnvironmentEffect.create config g₁).2.nextId ∧
      ed.2 < (EnvironmentEffect.create config g₁).2.nextId
    rcases List.mem_cons.1 hed with rfl | hed'
    · simp only [hmg]
      constructor
      · exact hout.2
      · omega
    · rcases cA ed hed' with hg | henv
      · have hb := hbound ed hg
        omega
      · have h1 := cB ed.1 henv.1
        have h2 := cB ed.2 henv.2
        omega
  · intro habs
    exact Option.noConfusion habs
  · intro env heq
    obtain rfl : (EnvironmentEffect.create config g₁).1 = env := Option.some.inj heq
    refine ⟨?_, ?_, ?_, ?_, ?_, ?_⟩
    · intro n hn
      have := cB n hn
      show 2 ≤ n ∧ n < (EnvironmentEffect.create config g₁).2.nextId
      omega
    · intro ed hed
      rcases List.mem_cons.1 hed with rfl | hed'
      · exact Or.inr (output_mem_envNodeList _)
      · rcases cA ed hed' with hg | henv
        · exact Or.inl (hsrc ed hg)
        · exact Or.inr henv.1
    · intro ed hed hedmg
      rcases List.mem_cons.1 hed with rfl | hed'
      · exfalso
        have := hout.1
        simp only [hmg] at hedmg
        omega
      · rcases cA ed hed' with hg | henv
        · exact htgt ed hg
        · exfalso
          have := cB ed.1 henv.1
          simp only [hmg] at hedmg
          omega
    · intro ed hed hedenv
      rcases List.mem_cons.1 hed with rfl | hed'
      · exact Or.inr rfl
      · rcases cA ed hed' with hg | henv
        · exfalso
          have h1 := hsrc ed hg
          have h2 := cB ed.1 hedenv
          simp only [hmg] at h1
          omega
        · exact Or.inl henv.2
    · intro ed hed hedmg
      rcases List.mem_cons.1 hed with rfl | hed'
      · rfl
      · rcases cA ed hed' with hg | henv
        · exfalso
          have h1 := htgt ed hg
          simp only [hdst] at h1
          simp only [hmg] at hedmg
          omega
        · exfalso
          have := cB ed.2 henv.2
          simp only [hmg] at hedmg
          omega
    · exact List.mem_cons_self _ _

theorem ManagerInv.setEnvironment_step (config : EnvironmentConfig)
    (m : AudioManagerState) (h : ManagerInv m) :
    ManagerInv (AudioManager.setEnvironment config m) := by
  obtain ⟨hmg, hdst, hn2, hbound, hnone, hsome⟩ := h
  cases hE : m.environment with
  | none =>
      have hedges := hnone hE
      have goal_eq : AudioManager.setEnvironment config m =
          { graph := AudioGraph.connect
              (EnvironmentEffect.create config m.graph).1.output
              m.masterGain (EnvironmentEffect.create config m.graph).2,
            masterGain := m.masterGain, destination := m.destination,
            environment := Option.some (EnvironmentEffect.create config m.graph).1 } := by
        simp only [AudioManager.setEnvironment, hE]
      rw [goal_eq]
      apply ManagerInv.connect_create m config m.graph hmg hdst hn2 hbound
      · intro ed hed
        rw [hedges] at hed
        simp only [List.mem_singleton] at hed
        subst hed
        rfl
      · intro ed hed
        rw [hedges] at hed
        simp only [List.mem_singleton] at hed
        subst hed
        rfl
  | some env =>
      obtain ⟨cEnvB, cSrc, cMgTgt, cEnvTgt, cToMg, cOutEdge⟩ := hsome env hE
      have goal_eq : AudioManager.setEnvironment config m =
          { graph := AudioGraph.connect
              (EnvironmentEffect.create config
                (EnvironmentEffect.dispose env m.graph)).1.output
              m.masterGain
              (EnvironmentEffect.create config
                (EnvironmentEffect.dispose env m.graph)).2,
            masterGain := m.masterGain, destination := m.destination,
            environment := Option.some
              (EnvironmentEffect.create config
                (EnvironmentEffect.dispose env m.graph)).1 } := by
        simp only [AudioManager.setEnvironment, hE]
      rw [goal_eq]
      have hmemg : ∀ ed : ℕ × ℕ, ed ∈ (EnvironmentEffect.dispose env m.graph).edges →
          ed ∈ m.graph.edges ∧ ed.1 ∉ envNodeList env := by
        intro ed hed
        exact (EnvironmentEffect.dispose_edges env m.graph ed).1 hed
      apply ManagerInv.connect_create m config _ hmg hdst
      · rw [EnvironmentEffect.dispose_nextId]
        exact hn2
      · intro ed hed
        obtain ⟨hg, _⟩ := hmemg ed hed
        rw [EnvironmentEffect.dispose_nextId]
        exact hbound ed hg
      · intro ed hed
        obtain ⟨hg, hnot⟩ := hmemg ed hed
        rcases cSrc ed hg with h | h
        · exact h
        · exact absurd h hnot
      · intro ed hed
        obtain ⟨hg, hnot⟩ := hmemg ed hed
        rcases cSrc ed hg with h | h
        · exact cMgTgt ed hg h
        · exact absurd h hnot

theorem managerInv_init : ManagerInv AudioManager.init := by
  refine ⟨rfl, rfl, ?_, ?_, fun _ => rfl, fun env heq => Option.noConfusion heq⟩
  · norm_num [AudioManager.init, AudioGraph.createNode, AudioGraph.connect]
  · intro ed hed
    simp only [AudioManager.init, AudioGraph.createNode, AudioGraph.connect,
      List.mem_singleton] at hed
    subst hed
    refine ⟨?_, ?_⟩ <;>
      norm_num [AudioManager.init, AudioGraph.createNode, AudioGraph.connect]

theorem managerInv_setEnvironments (configs : List EnvironmentConfig) :
    ∀ m, ManagerInv m → ManagerInv (AudioManager.setEnvironments configs m) := by
  induction configs with
  | nil =>
      intro m h
      exact h
  | cons c cs ih =>
      intro m h
      exact ih _ (ManagerInv.setEnvironment_step c m h)

theorem setEnvironments_environment_isSome (configs : List EnvironmentConfig) :
    ∀ m : AudioManagerState, m.environment.isSome = true →
      (AudioManager.setEnvironments configs m).environment.isSome = true := by
  induction configs with
  | nil =>
      intro m h
      exact h
  | cons c cs ih =>
      intro m _
      apply ih
      cases hE : m.environment <;>
        simp [AudioManager.setEnvironment, hE]

/-- Claim C5: after any nonempty sequence of setEnvironment calls on a
fresh AudioManager, exactly one environment chain remains wired toward the
master gain: every edge of the graph is either the master-gain-to-
destination wire or an edge leaving a node of the currently active
environment (toward the chain or the master gain), so no node built by an
earlier setEnvironment call remains connected in either direction; only the
active chain output feeds the master gain, and it does feed it. -/
theorem setEnvironment_single_chain (configs : List EnvironmentConfig)
    (hne : configs ≠ []) :
    ∃ env, (AudioManager.setEnvironments configs AudioManager.init).environment
        = Option.some env ∧
      (∀ ed ∈ (AudioManager.setEnvironments configs AudioManager.init).graph.edges,
        (ed.1 = (AudioManager.setEnvironments configs AudioManager.init).masterGain ∧
         ed.2 = (AudioManager.setEnvironments configs AudioManager.init).destination) ∨
        (ed.1 ∈ envNodeList env ∧
          (ed.2 ∈ envNodeList env ∨
           ed.2 = (AudioManager.setEnvironments configs AudioManager.init).masterGain))) ∧
      (∀ ed ∈ (AudioManager.setEnvironments configs AudioManager.init).graph.edges,
        ed.2 = (AudioManager.setEnvironments configs AudioManager.init).masterGain →
          ed.1 = env.output) ∧
      (env.output, (AudioManager.setEnvironments configs AudioManager.init).masterGain)
        ∈ (AudioManager.setEnvironments configs AudioManager.init).graph.edges := by
  have hinv := managerInv_setEnvironments configs AudioManager.init managerInv_init
  have hsome : (AudioManager.setEnvironments configs
      AudioManager.init).environment.isSome = true := by
    cases configs with
    | nil => exact absurd rfl hne
    | cons c cs =>
        show (AudioManager.setEnvironments cs
          (AudioManager.setEnvironment c AudioManager.init)).environment.isSome = true
        apply setEnvironments_environment_isSome
        cases hE : AudioManager.init.environment <;>
          simp [AudioManager.setEnvironment, hE]
  obtain ⟨env, heq⟩ := Option.isSome_iff_exists.1 hsome
  obtain ⟨hmg, hdst, hn2, hbound, hnone, hsomeInv⟩ := hinv
  obtain ⟨cEnvB, cSrc, cMgTgt, cEnvTgt, cToMg, cOutEdge⟩ := hsomeInv env heq
  refine ⟨env, heq, ?_, cToMg, cOutEdge⟩
  intro ed hed
  rcases cSrc ed hed with h | h
  · exact Or.inl ⟨h, cMgTgt ed hed h⟩
  · exact Or.inr ⟨h, cEnvTgt ed hed h⟩

/-- The cave preset of environmentPresets. -/
def cavePreset : EnvironmentConfig :=
  { type := EnvironmentType.cave
    reverb := Option.some
      { decay := Option.some 4, preDelay := Option.some (1/20)
        wet := Option.some (1/2), dry := Option.some (1/2) }
    lowpassFrequency := Option.some 8000
    highpassFrequency := Option.none }

/-- The underwater preset of environmentPresets. -/
def underwaterPreset : EnvironmentConfig :=
  { type := EnvironmentType.underwater
    reverb := Option.some
      { decay := Option.some 2, preDelay := Option.none
        wet := Option.some (2/5), dry := Option.some (3/5) }
    lowpassFrequency := Option.some 1000
    highpassFrequency := Option.some 100 }

/-- Witness for claim C5: two setEnvironment calls in succession (cave then
underwater presets) on a fresh manager leave exactly one reachable chain. -/
theorem setEnvironment_single_chain_witness :
    ∃ env, (AudioManager.setEnvironments [cavePreset, underwaterPreset]
        AudioManager.init).environment = Option.some env ∧
      (∀ ed ∈ (AudioManager.setEnvironments [cavePreset, underwaterPreset]
          AudioManager.init).graph.edges,
        (ed.1 = (AudioManager.setEnvironments [cavePreset, underwaterPreset]
            AudioManager.init).masterGain ∧
         ed.2 = (AudioManager.setEnvironments [cavePreset, underwaterPreset]
            AudioManager.init).destination) ∨
        (ed.1 ∈ envNodeList env ∧
          (ed.2 ∈ envNodeList env ∨
           ed.2 = (AudioManager.setEnvironments [cavePreset, underwaterPreset]
              AudioManager.init).masterGain))) ∧
      (∀ ed ∈ (AudioManager.setEnvironments [cavePreset, underwaterPreset]
          AudioManager.init).graph.edges,
        ed.2 = (AudioManager.setEnvironments [cavePreset, underwaterPreset]
            AudioManager.init).masterGain →
          ed.1 = env.output) ∧
      (env.output, (AudioManager.setEnvironments [cavePreset, underwaterPreset]
          AudioManager.init).masterGain)
        ∈ (AudioManager.setEnvironments [cavePreset, underwaterPreset]
            AudioManager.init).graph.edges :=
  setEnvironment_single_chain [cavePreset, underwaterPreset] (by simp)

end Strata
